import Mathlib

/-!
# XLink-Service: verification of the federated credential-exchange core

A shallow embedding of the JavaScript source of the XLink-Service repository
(token normalizer and decoder from `routes/debug.routes.js`, the credential
chain from `routes/auth.routes.js`, the version-fallback callers and batch
gamertag resolver from `services/xbox.service.js`, the error mapping of
`services/redeem.service.js`/`services/minecraft.service.js`, the wishlist
version cache from `routes/wishlist.routes.js`, and the TTL memoization
helper from `utils/cache.js`).

Host-platform primitives (`Buffer` base64 decoding composed with
`JSON.parse`, the `jsonwebtoken` library's `jwt.decode`, the HTTP transport,
wall-clock time) are modelled as explicit oracle parameters; everything the
repository's own code does with their results is embedded faithfully.
-/

namespace XLink

/-! ## JavaScript string primitives

`String.prototype.trim` and the regex character classes used by
`normalizeToken` (`\s`, `.`) restricted to the ASCII range that the
tokens handled by the service contain. -/

/-- Whitespace recognized by JS `trim` / regex `\s` (ASCII part). -/
def jsWs (c : Char) : Bool :=
  c == ' ' || c == '\t' || c == '\n' || c == '\r' || c == '\x0b' || c == '\x0c'

/-- Characters the JS regex `.` does not match (line terminators). -/
def lineTerm (c : Char) : Bool :=
  c == '\n' || c == '\r' || c.val == 0x2028 || c.val == 0x2029

/-- JS `String.prototype.trim` on a character list. -/
def jsTrimL (l : List Char) : List Char :=
  ((l.dropWhile jsWs).reverse.dropWhile jsWs).reverse

/-- Case-insensitive match of a literal pattern at the start of a string
(the anchored, case-insensitive literal part of the regexes in
`normalizeToken`); returns the remainder on success. -/
def matchCI : List Char → List Char → Option (List Char)
  | [], s => some s
  | _, [] => none
  | p :: ps, c :: cs => if p.toLower = c.toLower then matchCI ps cs else none

/-! ## `normalizeToken` (routes/debug.routes.js) -/

/-- Result shape of `normalizeToken`: `{raw, prefix, uhs}`. -/
structure NormResult where
  raw : String
  prefixStr : Option String
  uhs : Option String
deriving DecidableEq, Repr

/-- `/^Bearer\s+/i` test-and-strip: on success returns the remainder with
the matched `Bearer` and the greedy whitespace run removed. -/
def stripBearer (t : List Char) : Option (List Char) :=
  match matchCI "bearer".data t with
  | none => none
  | some rest =>
    match rest with
    | [] => none
    | c :: _ => if jsWs c then some (rest.dropWhile jsWs) else none

/-- `/^MCToken\s+/i` test-and-strip. -/
def stripMCToken (t : List Char) : Option (List Char) :=
  match matchCI "mctoken".data t with
  | none => none
  | some rest =>
    match rest with
    | [] => none
    | c :: _ => if jsWs c then some (rest.dropWhile jsWs) else none

/-- `/^XBL3\.0\s/i` test. -/
def xblTest (t : List Char) : Bool :=
  match matchCI "xbl3.0".data t with
  | none => false
  | some rest =>
    match rest with
    | [] => false
    | c :: _ => jsWs c

/-- The match `t.match(/^XBL3\.0\s+x=([^;]+);(.+)$/i)`: a greedy
whitespace run after the literal, then `x=`, then a nonempty run without
`;` (group 1), then `;`, then a nonempty remainder without line
terminators (group 2, since `.` cannot match a line terminator and `$`
anchors at the very end). -/
def xblMatch (t : List Char) : Option (List Char × List Char) :=
  match matchCI "xbl3.0".data t with
  | none => none
  | some rest =>
    match rest with
    | [] => none
    | c :: _ =>
      if jsWs c then
        match matchCI "x=".data (rest.dropWhile jsWs) with
        | none => none
        | some rest2 =>
          let a := rest2.takeWhile (fun ch => !(ch == ';'))
          match rest2.dropWhile (fun ch => !(ch == ';')) with
          | ';' :: b =>
            if a.isEmpty then none
            else if b.isEmpty then none
            else if b.all (fun ch => !lineTerm ch) then some (a, b)
            else none
          | _ => none
      else none

/-- `/^XBL3\.0\s+/i` replace-and-strip (the else-branch when the full
`x=<uhs>;<token>` grammar does not match but the prefix test passed). -/
def stripXbl (t : List Char) : List Char :=
  match matchCI "xbl3.0".data t with
  | none => t
  | some rest => rest.dropWhile jsWs

/-- `normalizeToken(tok)` from `routes/debug.routes.js`: strips a
`Bearer`, `XBL3.0 x=<uhs>;<token>` or `MCToken` prefix (in that order),
recording the prefix and, for the XBL3.0 grammar, the user hash. -/
def normalizeToken (tok : String) : NormResult :=
  let t0 := jsTrimL tok.data
  let afterBearer :=
    match stripBearer t0 with
    | some rest => (jsTrimL rest, some "Bearer")
    | none => (t0, (none : Option String))
  let t1 := afterBearer.1
  let afterXbl :=
    if xblTest t1 then
      match xblMatch t1 with
      | some (a, b) => (jsTrimL b, some "XBL3.0", some (String.mk a))
      | none => (jsTrimL (stripXbl t1), some "XBL3.0", (none : Option String))
    else (t1, afterBearer.2, (none : Option String))
  let t2 := afterXbl.1
  let afterMC :=
    match stripMCToken t2 with
    | some rest => (jsTrimL rest, some "MCToken")
    | none => (t2, afterXbl.2.1)
  { raw := String.mk afterMC.1, prefixStr := afterMC.2, uhs := afterXbl.2.2 }

/-! ## `decodeOne` (routes/debug.routes.js)

JSON values are modelled with the small fragment the decoder's own code
inspects (`payload.exp` numeric check, the literal `OpaqueToken` header and
`{length}` payload); `b64urlToString` composed with `tryParseJson`
(host `Buffer` + `JSON.parse`, truthy results only) and
`jwt.decode(raw, {complete: true})` are oracle parameters. -/

inductive JsVal where
  | str (s : String)
  | num (n : Int)
deriving DecidableEq, Repr

/-- A decoded JSON object: named fields. -/
def JsObj := List (String × JsVal)
deriving DecidableEq, Repr

/-- Result of the external `jwt.decode(raw, {complete: true})` call
(`dec.header || null`, `dec.payload || null`). -/
structure JwtDec where
  header : Option JsObj
  payload : Option JsObj
deriving DecidableEq, Repr

/-- Outcome of `decodeCompact`. -/
inductive CompactRes where
  | jws (h p : JsObj)
  | jwe (h : JsObj)
deriving DecidableEq, Repr

/-- JS `String.prototype.split` with a one-character separator
(`raw.split(".")`): splitting the empty string yields `[""]`. -/
def splitOnChar (sep : Char) : List Char → List (List Char)
  | [] => [[]]
  | c :: rest =>
    let r := splitOnChar sep rest
    if c = sep then [] :: r
    else
      match r with
      | [] => [[c]]
      | h :: t => (c :: h) :: t

/-- `decodeCompact(raw)`: split on `.`; three segments decode header and
payload (both must parse truthy, kind JWS); five segments decode the
header only (kind JWE); anything else is `null`.  `pj` is the oracle for
`tryParseJson(b64urlToString(segment))`. -/
def decodeCompact (pj : String → Option JsObj) (raw : String) : Option CompactRes :=
  match splitOnChar '.' raw.data with
  | [p0, p1, _] =>
    match pj (String.mk p0), pj (String.mk p1) with
    | some h, some p => some (CompactRes.jws h p)
    | _, _ => none
  | [q0, _, _, _, _] => (pj (String.mk q0)).map CompactRes.jwe
  | _ => none

/-- Stage 1 of `decodeOne`: the manual compact split, else the generic
`jwt.decode` second opinion; yields `(ok, header, payload, kind)`. -/
def decodeStage1 (cp : Option CompactRes) (jd : Option JwtDec) :
    Bool × Option JsObj × Option JsObj × Option String :=
  match cp with
  | some (CompactRes.jws h p) => (true, some h, some p, some "JWS")
  | some (CompactRes.jwe h) => (true, some h, none, some "JWE")
  | none =>
    match jd with
    | some d => (true, d.header, d.payload, some "JWS")
    | none => (false, none, none, none)

/-- The `{ok, header, payload, meta}` record `decodeOne` returns. -/
structure Decoded where
  ok : Bool
  header : Option JsObj
  payload : Option JsObj
  metaPrefix : Option String
  metaUhs : Option String
  hasExp : Bool
  secondsRemaining : Option Int
  rawLength : Nat
  kind : Option String
deriving DecidableEq, Repr

/-- `decodeOne(input)` from `routes/debug.routes.js`: normalize the
prefix, try the compact split, then `jwt.decode`, compute the `exp`
metadata, and finally the opaque fallback (`raw.trim().length >= 24`
⇒ `{typ: "OpaqueToken"}` / `{length}` / kind `OPAQUE`). -/
def decodeOne (pj : String → Option JsObj) (jdec : String → Option JwtDec)
    (now : Int) (input : String) : Decoded :=
  let n := normalizeToken input
  let raw := n.raw
  let s1 := decodeStage1 (decodeCompact pj raw) (jdec raw)
  let ok := s1.1
  let header := s1.2.1
  let payload := s1.2.2.1
  let kind := s1.2.2.2
  let expInfo : Bool × Option Int :=
    match payload with
    | some p =>
      match p.lookup "exp" with
      | some (JsVal.num e) => (true, some (e - now))
      | _ => (false, none)
    | none => (false, none)
  if !ok && decide (24 ≤ (jsTrimL raw.data).length) then
    { ok := true
      header := some [("typ", JsVal.str "OpaqueToken")]
      payload := some [("length", JsVal.num raw.length)]
      metaPrefix := n.prefixStr
      metaUhs := n.uhs
      hasExp := expInfo.1
      secondsRemaining := expInfo.2
      rawLength := raw.length
      kind := some "OPAQUE" }
  else
    { ok := ok
      header := header
      payload := payload
      metaPrefix := n.prefixStr
      metaUhs := n.uhs
      hasExp := expInfo.1
      secondsRemaining := expInfo.2
      rawLength := raw.length
      kind := kind }

/-! ## Error taxonomy (utils/httpError.js) and upstream failures -/

/-- `HttpError` from `utils/httpError.js`: an error carrying the HTTP
status it is served with, a human message, and a machine-readable code
(the newer variant of the file adds the code string; the optional
`details` diagnostics payload is opaque to every claim and not
modelled). -/
structure HttpError where
  status : Nat
  message : String
  code : String
deriving DecidableEq, Repr

/-- `badRequest(msg)`: `new HttpError(400, msg, details, "BAD_REQUEST")`. -/
def badRequest (message : String) : HttpError := ⟨400, message, "BAD_REQUEST"⟩

/-- `unauthorized(msg)`: `new HttpError(401, msg, details, "UNAUTHORIZED")`. -/
def unauthorized (message : String) : HttpError := ⟨401, message, "UNAUTHORIZED"⟩

/-- `forbidden(msg)`: `new HttpError(403, msg, details, "FORBIDDEN")`. -/
def forbidden (message : String) : HttpError := ⟨403, message, "FORBIDDEN"⟩

/-- `notFound(msg)`: `new HttpError(404, msg, details, "NOT_FOUND")`. -/
def notFound (message : String) : HttpError := ⟨404, message, "NOT_FOUND"⟩

/-- `conflict(msg)`: `new HttpError(409, msg, details, "CONFLICT")`. -/
def conflict (message : String) : HttpError := ⟨409, message, "CONFLICT"⟩

/-- `tooManyRequests(msg)`: `new HttpError(429, msg, details,
"TOO_MANY_REQUESTS")`. -/
def tooManyRequests (message : String) : HttpError := ⟨429, message, "TOO_MANY_REQUESTS"⟩

/-- `internal(msg)`: `new HttpError(500, msg, details, "INTERNAL")`. -/
def internal (message : String) : HttpError := ⟨500, message, "INTERNAL"⟩

/-- An axios rejection as the services inspect it: `err.response?.status`
(`none` models a network failure with no response). -/
structure UpstreamFailure where
  status : Option Nat
deriving DecidableEq, Repr

/-- `true` on `Except.error`. -/
def exceptIsError : Except ε α → Bool
  | .error _ => true
  | .ok _ => false

/-- The machine-readable `code` of a failed result, `none` on success. -/
def errCodeOf : Except HttpError α → Option String
  | .error e => some e.code
  | .ok _ => none

/-! ## Credential chain (routes/auth.routes.js) -/

/-- One `xui` entry of an XSTS token's display claims (`xid`, `uhs`,
`gtg`); every field may be absent. -/
structure Xui where
  xid : Option String
  uhs : Option String
  gtg : Option String
deriving DecidableEq, Repr

/-- The `DisplayClaims` block of an XSTS response. -/
structure DisplayClaimsBlock where
  xui : List Xui
deriving DecidableEq, Repr

/-- An XSTS authorize response as the chain reads it. -/
structure XstsInfo where
  Token : String
  DisplayClaims : Option DisplayClaimsBlock
deriving DecidableEq, Repr

/-- A Microsoft OAuth token response (`access_token`, `refresh_token`,
`expires_in`). -/
structure MsTokenData where
  access_token : String
  refresh_token : Option String
  expires_in : Option Int
deriving DecidableEq, Repr

/-- The destructured PlayFab `loginWithXbox` result. -/
structure LoginResult where
  SessionTicket : String
  PlayFabId : Option String
deriving DecidableEq, Repr

/-- A PlayFab `getEntityToken` result. -/
structure EntityData where
  EntityToken : Option String
  TokenExpiration : Option String
deriving DecidableEq, Repr

/-- The entity key passed for the master-player-account entity token
(source fields `Type` and `Id`; `Type` is a Lean keyword, hence `ty`). -/
structure EntityKey where
  ty : String
  ident : String
deriving DecidableEq, Repr

/-- Labels for the upstream calls the chain can issue. -/
inductive UpCall where
  | deviceCode
  | refreshMs
  | xblAuth
  | xstsAuth (relyingParty : String)
  | playfabLogin
  | mcAuth
  | entityTok (master : Bool)
deriving DecidableEq, Repr

/-- A late (post-XSTS) call: PlayFab login, Minecraft token, or an
entity-token request. -/
def isLateCall : UpCall → Bool
  | .playfabLogin => true
  | .mcAuth => true
  | .entityTok _ => true
  | _ => false

/-- The upstream world `completeLogin`/`refreshLogin` run against: the
response each provider call would produce, plus the configured title id
and the local `signJwt` (an external crypto primitive). -/
structure AuthEnv where
  deviceTokenResp : Except HttpError MsTokenData
  refreshTokenResp : Except HttpError MsTokenData
  xblResp : String → Except HttpError String
  xstsResp : String → String → Except HttpError XstsInfo
  loginResp : String → String → Except HttpError LoginResult
  mcResp : String → Except HttpError String
  entityResp : String → Option EntityKey → Except HttpError EntityData
  signJwt : Option String → Option String → String
  titleId : String

/-- JS template-literal interpolation of a possibly-undefined value
(`${x}` renders `undefined` for a missing value). -/
def jsTemplate : Option String → String
  | some s => s
  | none => "undefined"

/-- JS truthiness of a possibly-absent string (only `undefined`/`null`
and `""` are falsy here). -/
def jsTruthyS : Option String → Bool
  | some s => s ≠ ""
  | none => false

/-- JS `a || b` for a possibly-absent string with a string default. -/
def jsOrS (a : Option String) (b : String) : String :=
  match a with
  | some s => if s = "" then b else s
  | none => b

/-- The response body `buildAuthCallbackResponse` assembles
(`utils/authResponse.js`). -/
structure AuthBundle where
  jwt : String
  xuid : Option String
  gamertag : Option String
  uhs : Option String
  msAccessToken : String
  msRefreshToken : Option String
  msExpiresIn : Option Int
  xblToken : String
  xstsXbox : XstsInfo
  xstsRedeem : XstsInfo
  xstsPlayfab : XstsInfo
  xboxliveToken : String
  playfabToken : String
  redeemToken : String
  mcToken : String
  sessionTicket : String
  playFabId : Option String
  entityToken : Option String
  entityTokenExpiresOn : Option String
  entityTokenMaster : Option String
  entityTokenMasterExpiresOn : Option String
deriving DecidableEq, Repr

/-- The shared tail of the chain after a Microsoft token was obtained
(`/auth/callback` and `/auth/refresh` repeat steps 2-9 verbatim): XBL
user token, three sequentially awaited XSTS tokens, display-claims
extraction with `|| {}` default, composite-token templating, PlayFab
login, Minecraft token, entity token(s), and the assembled bundle.
Returns the result together with the trace of upstream calls issued. -/
def authChainTail (env : AuthEnv) (msAccessToken : String)
    (msRefreshToken : Option String) (msExpiresIn : Option Int)
    (calls0 : List UpCall) : Except HttpError AuthBundle × List UpCall :=
  let calls1 := calls0 ++ [UpCall.xblAuth]
  match env.xblResp msAccessToken with
  | .error e => (.error e, calls1)
  | .ok xblToken =>
    let calls2 := calls1 ++ [UpCall.xstsAuth "http://xboxlive.com"]
    match env.xstsResp xblToken "http://xboxlive.com" with
    | .error e => (.error e, calls2)
    | .ok xboxTokenInfo =>
      let calls3 := calls2 ++ [UpCall.xstsAuth "https://b980a380.minecraft.playfabapi.com/"]
      match env.xstsResp xblToken "https://b980a380.minecraft.playfabapi.com/" with
      | .error e => (.error e, calls3)
      | .ok redeemTokenInfo =>
        let calls4 := calls3 ++ [UpCall.xstsAuth "rp://playfabapi.com/"]
        match env.xstsResp xblToken "rp://playfabapi.com/" with
        | .error e => (.error e, calls4)
        | .ok playfabTokenInfo =>
          -- xboxTokenInfo.DisplayClaims?.xui?.[0] || {}
          let xboxUserInfo := (xboxTokenInfo.DisplayClaims.bind
            (fun dc => dc.xui.head?)).getD ⟨none, none, none⟩
          let uhs := xboxUserInfo.uhs
          let xboxliveToken := "XBL3.0 x=" ++ jsTemplate uhs ++ ";" ++ xboxTokenInfo.Token
          let redeemToken := "XBL3.0 x=" ++ jsTemplate uhs ++ ";" ++ redeemTokenInfo.Token
          let playfabToken := "XBL3.0 x=" ++ jsTemplate uhs ++ ";" ++ playfabTokenInfo.Token
          let calls5 := calls4 ++ [UpCall.playfabLogin]
          match env.loginResp playfabToken env.titleId with
          | .error e => (.error e, calls5)
          | .ok lr =>
            let calls6 := calls5 ++ [UpCall.mcAuth]
            match env.mcResp lr.SessionTicket with
            | .error e => (.error e, calls6)
            | .ok mcToken =>
              let calls7 := calls6 ++ [UpCall.entityTok false]
              match env.entityResp lr.SessionTicket none with
              | .error e => (.error e, calls7)
              | .ok entityData =>
                let finish := fun (masterEntityData : Option EntityData) (calls : List UpCall) =>
                  ((Except.ok
                    { jwt := env.signJwt xboxUserInfo.xid xboxUserInfo.gtg
                      xuid := xboxUserInfo.xid
                      gamertag := xboxUserInfo.gtg
                      uhs := uhs
                      msAccessToken := msAccessToken
                      msRefreshToken := msRefreshToken
                      msExpiresIn := msExpiresIn
                      xblToken := xblToken
                      xstsXbox := xboxTokenInfo
                      xstsRedeem := redeemTokenInfo
                      xstsPlayfab := playfabTokenInfo
                      xboxliveToken := xboxliveToken
                      playfabToken := playfabToken
                      redeemToken := redeemToken
                      mcToken := mcToken
                      sessionTicket := lr.SessionTicket
                      playFabId := lr.PlayFabId
                      entityToken := entityData.EntityToken
                      entityTokenExpiresOn := entityData.TokenExpiration
                      entityTokenMaster := masterEntityData.bind (fun d => d.EntityToken)
                      entityTokenMasterExpiresOn := masterEntityData.bind (fun d => d.TokenExpiration)
                      : AuthBundle } : Except HttpError AuthBundle), calls)
                if jsTruthyS lr.PlayFabId then
                  let calls8 := calls7 ++ [UpCall.entityTok true]
                  match env.entityResp lr.SessionTicket
                      (some ⟨"master_player_account", lr.PlayFabId.getD ""⟩) with
                  | .error e => (.error e, calls8)
                  | .ok masterEntityData => finish (some masterEntityData) calls8
                else finish none calls7

/-- `POST /auth/callback`: exchange the device code, then run the chain
tail. -/
def completeLogin (env : AuthEnv) : Except HttpError AuthBundle × List UpCall :=
  match env.deviceTokenResp with
  | .error e => (.error e, [UpCall.deviceCode])
  | .ok tokenData =>
    authChainTail env tokenData.access_token tokenData.refresh_token
      tokenData.expires_in [UpCall.deviceCode]

/-- `POST /auth/refresh`: exchange the refresh token
(`tokenData.refresh_token || value.msRefreshToken`), then run the same
chain tail. -/
def refreshLogin (env : AuthEnv) (msRefreshTokenIn : String) :
    Except HttpError AuthBundle × List UpCall :=
  match env.refreshTokenResp with
  | .error e => (.error e, [UpCall.refreshMs])
  | .ok tokenData =>
    authChainTail env tokenData.access_token
      (some (jsOrS tokenData.refresh_token msRefreshTokenIn))
      tokenData.expires_in [UpCall.refreshMs]

/-- An upstream world whose XSTS endpoint always fails while every other
provider call succeeds. -/
def envC1 : AuthEnv :=
  { deviceTokenResp := .ok ⟨"msAT", some "msRT", some 3600⟩
    refreshTokenResp := .error (badRequest "unused")
    xblResp := fun _ => .ok "xbl"
    xstsResp := fun _ _ => .error (internal "Failed to get XSTS token")
    loginResp := fun _ _ => .ok ⟨"st", some "pfid"⟩
    mcResp := fun _ => .ok "MCToken m"
    entityResp := fun _ _ => .ok ⟨some "et", some "exp"⟩
    signJwt := fun _ _ => "jwt"
    titleId := "20ca2" }

/-- An upstream world where all calls succeed but the Xbox-audience XSTS
response carries no `DisplayClaims` block. -/
def envC4 : AuthEnv :=
  { deviceTokenResp := .ok ⟨"msAT", some "msRT", some 3600⟩
    refreshTokenResp := .ok ⟨"msAT", some "msRT2", some 3600⟩
    xblResp := fun _ => .ok "xbl"
    xstsResp := fun _ _ => .ok ⟨"xstsTok", none⟩
    loginResp := fun _ _ => .ok ⟨"st", some "pfid"⟩
    mcResp := fun _ => .ok "MCToken m"
    entityResp := fun _ _ => .ok ⟨some "et", some "exp"⟩
    signJwt := fun _ _ => "jwt"
    titleId := "20ca2" }

/-- The bundle `completeLogin` produces against `envC4`. -/
def bundleC4 : AuthBundle :=
  { jwt := "jwt", xuid := none, gamertag := none, uhs := none,
    msAccessToken := "msAT", msRefreshToken := some "msRT", msExpiresIn := some 3600,
    xblToken := "xbl",
    xstsXbox := ⟨"xstsTok", none⟩, xstsRedeem := ⟨"xstsTok", none⟩,
    xstsPlayfab := ⟨"xstsTok", none⟩,
    xboxliveToken := "XBL3.0 x=undefined;xstsTok",
    playfabToken := "XBL3.0 x=undefined;xstsTok",
    redeemToken := "XBL3.0 x=undefined;xstsTok",
    mcToken := "MCToken m", sessionTicket := "st", playFabId := some "pfid",
    entityToken := some "et", entityTokenExpiresOn := some "exp",
    entityTokenMaster := some "et", entityTokenMasterExpiresOn := some "exp" }

/-! ## Version-fallback call sites (services/xbox.service.js) -/

/-- The producer `getProfileSettings` passes to `cached` (the
version-fallback logic of lines 51-71): try contract version 3; on a 401
or 403 fail hard; on any other failure retry once with version 2.
Returns the result with the list of versions attempted, in order. -/
def getProfileSettingsFetch {α : Type} (call : Nat → Except UpstreamFailure α) :
    Except HttpError α × List Nat :=
  match call 3 with
  | .ok d => (.ok d, [3])
  | .error errV3 =>
    if errV3.status = some 401 ∨ errV3.status = some 403 then
      (.error (internal "Failed to get profile settings"), [3])
    else
      match call 2 with
      | .ok d => (.ok d, [3, 2])
      | .error _ => (.error (internal "Failed to get profile settings"), [3, 2])

/-- `getPeopleSocial`: try contract version 4; exactly on a 401/403
rejection retry once with version 3; any other failure is terminal.
Returns the result with the list of versions attempted, in order. -/
def getPeopleSocial {α : Type} (call : Nat → Except UpstreamFailure α) :
    Except HttpError α × List Nat :=
  match call 4 with
  | .ok d => (.ok d, [4])
  | .error errV4 =>
    if errV4.status = some 401 ∨ errV4.status = some 403 then
      match call 3 with
      | .ok d => (.ok d, [4, 3])
      | .error _ => (.error (internal "Failed to get people (social)"), [4, 3])
    else (.error (internal "Failed to get people (social)"), [4])

/-- An upstream that rejects contract version 3 with 403 and accepts
version 2. -/
def stubRejectV3 : Nat → Except UpstreamFailure Unit :=
  fun v => if v = 3 then .error ⟨some 403⟩ else .ok ()

/-- An upstream that rejects contract version 4 with 403 and accepts
version 3. -/
def stubRejectV4 : Nat → Except UpstreamFailure Unit :=
  fun v => if v = 4 then .error ⟨some 403⟩ else .ok ()

/-! ## Error mapping of the upstream token clients (claim C8) -/

/-- The Xbox user-authenticate response (`data.Token`). -/
structure XblAuthData where
  Token : String
deriving DecidableEq, Repr

/-- `getXBLToken` (services/xbox.service.js lines 8-19): return
`data.Token`; EVERY failure is wrapped as `internal("Failed to get XBL
token")` regardless of its status. -/
def getXBLToken (resp : Except UpstreamFailure XblAuthData) : Except HttpError String :=
  match resp with
  | .ok d => .ok d.Token
  | .error _ => .error (internal "Failed to get XBL token")

/-- The Minecraft session-start response as `getMCToken` reads it
(`res.data?.result?.authorizationHeader`). -/
structure McAuthResp where
  authorizationHeader : Option String
deriving DecidableEq, Repr

/-- JS `status && status >= 400 && status < 500` on
`err.response?.status`. -/
def is4xx : Option Nat → Bool
  | some s => decide (400 ≤ s) && decide (s < 500)
  | none => false

/-- `getMCToken` (services/redeem.service.js related variant, the lines
the claim cites): a missing/invalid session ticket throws `badRequest`
inside the `try`, which the catch re-wraps as `internal` (the thrown
error has no `response`); an upstream 401 maps to `unauthorized`, 403 to
`forbidden`, any other 4xx to `unauthorized` (not a client error), and a
missing-header success or network/5xx failure to `internal`. -/
def getMCToken (sessionTicket : String) (resp : Except UpstreamFailure McAuthResp) :
    Except HttpError String :=
  if sessionTicket = "" then .error (internal "Failed to get Minecraft token")
  else
    match resp with
    | .ok d =>
      match d.authorizationHeader with
      | some h => .ok h
      | none => .error (internal "Failed to get Minecraft token")
    | .error err =>
      if err.status = some 401 then .error (unauthorized "Failed to get Minecraft token")
      else if err.status = some 403 then .error (forbidden "Failed to get Minecraft token")
      else if is4xx err.status then .error (unauthorized "Failed to get Minecraft token")
      else .error (internal "Failed to get Minecraft token")

/-! ## Wishlist version cache (routes/wishlist.routes.js, claim C9) -/

/-- A wishlist version-cache entry: the two optimistic-concurrency
stamps. -/
structure VersionEntry where
  listVersion : Option String
  inventoryVersion : Option String
deriving DecidableEq, Repr

/-- The module-level `versionCache` (a JS `Map` keyed by the Minecraft
token), modelled by its lookup function. -/
def VersionCache := String → Option VersionEntry

/-- JS `a || b` on possibly-absent strings (`undefined` and `""` are
falsy). -/
def jsOrOpt (a b : Option String) : Option String :=
  if jsTruthyS a then a else b

/-- `getCachedVersions(mcToken)`: `null` when absent, else the projected
`{listVersion, inventoryVersion}` pair. -/
def getCachedVersions (cache : VersionCache) (mcToken : String) : Option VersionEntry :=
  match cache mcToken with
  | none => none
  | some v => some ⟨v.listVersion, v.inventoryVersion⟩

/-- `setCachedVersions(mcToken, listVersion, inventoryVersion)`: merge
into the existing entry (`|| current.field`), defaulting to `{}`. -/
def setCachedVersions (cache : VersionCache) (mcToken : String)
    (listVersion inventoryVersion : Option String) : VersionCache :=
  let current := (cache mcToken).getD ⟨none, none⟩
  fun k => if k = mcToken then
    some ⟨jsOrOpt listVersion current.listVersion,
          jsOrOpt inventoryVersion current.inventoryVersion⟩
  else cache k

/-! ## TTL memoization helper (utils/cache.js, claim C10) -/

/-- The LRU cache's stored entries: value and expiry instant (capacity
eviction is not modelled; the claim concerns the TTL/memoization logic).
A producer that resolved to `undefined` is modelled as `Option.none`. -/
def TtlStore (α : Type) := String → Option (α × Int)

/-- `cached(key, fn, ttlMs)` at instant `now` over store `st`: return the
hit when the lookup is strictly not `undefined` (present and unexpired),
otherwise run the producer and store its value with the given TTL.
Returns the produced/cached value and the new store. -/
def cached {α : Type} (key : String) (fn : Unit → Option α) (ttlMs : Int)
    (now : Int) (st : TtlStore α) : Option α × TtlStore α :=
  let hit : Option α :=
    match st key with
    | some (v, expiresAt) => if now < expiresAt then some v else none
    | none => none
  match hit with
  | some v => (some v, st)
  | none =>
    let val := fn ()
    (val, fun k => if k = key then val.map (fun v => (v, now + ttlMs)) else st k)

/-- A version cache holding one populated entry. -/
def cacheC9 : VersionCache := fun k => if k = "tok" then some ⟨some "L1", some "I1"⟩ else none

/-! ## Batch gamertag resolver (services/xbox.service.js getGamertagsBatch) -/

/-- One `settings` entry of a profile response. -/
structure ProfileSetting where
  id : String
  value : Option String
deriving DecidableEq, Repr

/-- One `profileUsers` entry of a profile response. -/
structure ProfileUser where
  id : Option String
  settings : List ProfileSetting
deriving DecidableEq, Repr

/-- A profile-settings response body (`data?.profileUsers ||
data?.ProfileUsers || []` for the bulk endpoint, `data?.profileUsers`
for the single-item endpoint) reduced to the list the code reads. -/
structure ProfileUsersResp where
  profileUsers : List ProfileUser
deriving DecidableEq, Repr

/-- The three request shapes the bulk path tries in order: contract
version 3, contract version 2, and the version-2 query-parameter
variant. -/
inductive BulkVariant where
  | v3
  | v2
  | v2query
deriving DecidableEq, Repr

/-- The JS object `out` accumulating `xuid → gamertag|null`, as an
insertion-ordered association list with unique keys. -/
abbrev OutMap := List (String × Option String)

/-- `out[k] = v` on a JS object: overwrite in place or append. -/
def objSet (out : OutMap) (k : String) (v : Option String) : OutMap :=
  if out.any (fun p => p.1 = k) then
    out.map (fun p => if p.1 = k then (k, v) else p)
  else out ++ [(k, v)]

/-- `out[k] ??= v` on a JS object: append only when the key is absent. -/
def objSetDflt (out : OutMap) (k : String) (v : Option String) : OutMap :=
  if out.any (fun p => p.1 = k) then out else out ++ [(k, v)]

/-- `(u?.settings || []).find(s => s.id === "Gamertag")?.value ?? null`. -/
def gamertagOf (u : ProfileUser) : Option String :=
  (u.settings.find? (fun s => s.id = "Gamertag")).bind (fun s => s.value)

/-- `mergeUsers(data)`: fold the returned users into `out`, keyed by the
truthy `u.id`. -/
def mergeUsers (out : OutMap) (users : List ProfileUser) : OutMap :=
  users.foldl (fun acc u =>
    if jsTruthyS u.id then objSet acc (u.id.getD "") (gamertagOf u) else acc) out

/-- Fuel-driven chunking (`for (let i = 0; i < n; i += MAX_BATCH)`),
structural so that it evaluates in the kernel; the fuel is the list
length, which suffices for any positive chunk size. -/
def chunksOfAux (n : Nat) : Nat → List String → List (List String)
  | 0, _ => []
  | _, [] => []
  | fuel + 1, l => l.take n :: chunksOfAux n fuel (l.drop n)

/-- Split into chunks of at most `n`. -/
def chunksOf (n : Nat) (l : List String) : List (List String) :=
  chunksOfAux n l.length l

/-- The chunk loop of the bulk path inside the outer `try`: per chunk,
try v3; on a 400/401/403 rejection try v2, then the query variant; any
other v3 failure — or a query-variant failure — escapes to the outer
`catch` (second component `false`), keeping the entries already
merged. -/
def bulkPhase (bulk : List String → BulkVariant → Except UpstreamFailure ProfileUsersResp) :
    List (List String) → OutMap → OutMap × Bool
  | [], out => (out, true)
  | chunk :: rest, out =>
    match bulk chunk BulkVariant.v3 with
    | .ok data => bulkPhase bulk rest (mergeUsers out data.profileUsers)
    | .error errV3 =>
      if errV3.status = some 400 ∨ errV3.status = some 401 ∨ errV3.status = some 403 then
        match bulk chunk BulkVariant.v2 with
        | .ok data => bulkPhase bulk rest (mergeUsers out data.profileUsers)
        | .error _ =>
          match bulk chunk BulkVariant.v2query with
          | .ok data => bulkPhase bulk rest (mergeUsers out data.profileUsers)
          | .error _ => (out, false)
      else (out, false)

/-- One worker iteration on identifier `x`: single lookup with contract
version 2, on failure retried with version 3, keying the result by the
RESPONSE's `u.id` (a success with no usable entry stores nothing); only
when both lookups fail is `out[x] ??= null` recorded. -/
def workerStep (single : String → Nat → Except UpstreamFailure ProfileUsersResp)
    (out : OutMap) (x : String) : OutMap :=
  match single x 2 with
  | .ok data =>
    match data.profileUsers.head? with
    | some u => if jsTruthyS u.id then objSet out (u.id.getD "") (gamertagOf u) else out
    | none => out
  | .error _ =>
    match single x 3 with
    | .ok data =>
      match data.profileUsers.head? with
      | some u => if jsTruthyS u.id then objSet out (u.id.getD "") (gamertagOf u) else out
      | none => out
    | .error _ => objSetDflt out x none

/-- `getGamertagsBatch(xuids, ...)`: filter falsy ids and stringify;
empty input returns `{}` with no call; otherwise run the chunked bulk
path and return early only when it completed without exception and
resolved as many keys as there are (duplicate-counting) identifiers;
otherwise run the 8-worker pool over the original identifier list (the
cooperative workers pop each queue element exactly once; the fold is
that serialization). -/
def getGamertagsBatch
    (bulk : List String → BulkVariant → Except UpstreamFailure ProfileUsersResp)
    (single : String → Nat → Except UpstreamFailure ProfileUsersResp)
    (xuids : List String) : OutMap :=
  let allXuids := xuids.filter (fun x => x ≠ "")
  if allXuids.isEmpty then []
  else
    let bp := bulkPhase bulk (chunksOf 100 allXuids) []
    if bp.2 = true ∧ bp.1.length = allXuids.length then bp.1
    else allXuids.foldl (workerStep single) bp.1

/-- The key list (`Object.keys`) of the result object. -/
def objKeys (out : OutMap) : List String := out.map Prod.fst

/-- A bulk endpoint that always fails with a network error. -/
def bulkFail : List String → BulkVariant → Except UpstreamFailure ProfileUsersResp :=
  fun _ _ => .error ⟨none⟩

/-- A single-item endpoint that always fails with a network error. -/
def singleFail : String → Nat → Except UpstreamFailure ProfileUsersResp :=
  fun _ _ => .error ⟨none⟩

/-! ## Theorems -/

/-! ## Lemmas about the string primitives -/

/-- `takeWhile (≠ ';')` over `u ++ ';' :: t` returns `u` when `u` has no `;`. -/
theorem takeWhile_semi (u t : List Char) (h : ';' ∉ u) :
    (u ++ ';' :: t).takeWhile (fun ch => !(ch == ';')) = u := by
  induction u with
  | nil => simp
  | cons a l ih =>
    have ha : ¬ (a = ';') := fun e => h (by simp [e])
    simp only [List.cons_append, List.takeWhile_cons]
    simp [ha, ih (fun hm => h (List.mem_cons_of_mem _ hm))]

/-- `dropWhile (≠ ';')` over `u ++ ';' :: t` returns `';' :: t` when `u` has no `;`. -/
theorem dropWhile_semi (u t : List Char) (h : ';' ∉ u) :
    (u ++ ';' :: t).dropWhile (fun ch => !(ch == ';')) = ';' :: t := by
  induction u with
  | nil => simp
  | cons a l ih =>
    have ha : ¬ (a = ';') := fun e => h (by simp [e])
    simp only [List.cons_append, List.dropWhile_cons]
    simp [ha, ih (fun hm => h (List.mem_cons_of_mem _ hm))]

/-- A list whose first and last characters are not JS whitespace is fixed
by `jsTrimL`. -/
theorem jsTrimL_eq_self {l : List Char} (h1 : ∀ x ∈ l.head?, jsWs x = false)
    (h2 : ∀ x ∈ l.getLast?, jsWs x = false) : jsTrimL l = l := by
  have hd : l.dropWhile jsWs = l := by
    cases l with
    | nil => rfl
    | cons a s =>
      rw [List.dropWhile_cons, if_neg]
      simp [h1 a (by simp)]
  have hr : l.reverse.dropWhile jsWs = l.reverse := by
    cases hl : l.reverse with
    | nil => rfl
    | cons a s =>
      rw [List.dropWhile_cons, if_neg]
      have hg : l.getLast? = some a := by rw [← List.head?_reverse, hl]; rfl
      simp [h2 a hg]
  unfold jsTrimL
  rw [hd, hr, List.reverse_reverse]

/-! ## Claims C5, C6, C7 (token codec) -/

/-- Claim C7 (counterexample): the round trip
`parse("XBL3.0 x=" + uhs + ";" + token) == {uhs, token}` fails for
`uhs = "u"`, `token = ""` although neither contains `;`: the regex group
`(.+)` needs a nonempty token, so `normalizeToken` falls back to the
plain prefix strip and reports `raw = "x=u;"` with no `uhs`. -/
theorem claim_C7_cex :
    (';' ∉ "u".data) ∧ (';' ∉ "".data) ∧
    normalizeToken ("XBL3.0 x=" ++ "u" ++ ";" ++ "") ≠
      { raw := "", prefixStr := some "XBL3.0", uhs := some "u" } := by decide

/-- Claim C7 (amended): for nonempty `uhs` and `token`, neither containing
`;`, where `token` additionally contains no line terminator, has no
leading or trailing JS whitespace, and does not itself begin with an
`MCToken` prefix, parsing the composite `"XBL3.0 x=" + uhs + ";" + token`
with `normalizeToken` yields back exactly `{uhs, token}` (and records the
`XBL3.0` prefix). -/
theorem claim_C7 (u t : String)
    (hu : u.data ≠ []) (husemi : ';' ∉ u.data)
    (ht : t.data ≠ []) (_htsemi : ';' ∉ t.data)
    (htlt : ∀ c ∈ t.data, lineTerm c = false)
    (hth : ∀ x ∈ t.data.head?, jsWs x = false)
    (htl : ∀ x ∈ t.data.getLast?, jsWs x = false)
    (htmc : stripMCToken t.data = none) :
    normalizeToken ("XBL3.0 x=" ++ u ++ ";" ++ t) =
      { raw := t, prefixStr := some "XBL3.0", uhs := some u } := by
  have hdata : ("XBL3.0 x=" ++ u ++ ";" ++ t).data
      = 'X':: 'B':: 'L':: '3':: '.':: '0':: ' ':: 'x':: '='::(u.data ++ ';' :: t.data) := by
    simp [String.data_append]
  have httr : jsTrimL t.data = t.data := jsTrimL_eq_self hth htl
  obtain ⟨c, hc⟩ : ∃ c, t.data.getLast? = some c := by
    cases htd : t.data.getLast? with
    | none => exact absurd (List.getLast?_eq_none_iff.mp htd) ht
    | some c => exact ⟨c, rfl⟩
  have htrim0 : jsTrimL ('X':: 'B':: 'L':: '3':: '.':: '0':: ' ':: 'x':: '='::(u.data ++ ';' :: t.data))
      = 'X':: 'B':: 'L':: '3':: '.':: '0':: ' ':: 'x':: '='::(u.data ++ ';' :: t.data) := by
    apply jsTrimL_eq_self
    · intro x hx
      simp only [List.head?_cons, Option.mem_def, Option.some.injEq] at hx
      subst hx; decide
    · intro x hx
      have hchain : ('X':: 'B':: 'L':: '3':: '.':: '0':: ' ':: 'x':: '='::(u.data ++ ';' :: t.data))
          = ['X','B','L','3','.','0',' ','x','='] ++ (u.data ++ ([';'] ++ t.data)) := by simp
      rw [hchain, List.getLast?_append, List.getLast?_append, List.getLast?_append, hc] at hx
      simp only [Option.or_some, Option.mem_def, Option.some.injEq] at hx
      subst hx
      exact htl c hc
  have hbearer : stripBearer ('X':: 'B':: 'L':: '3':: '.':: '0':: ' ':: 'x':: '='::(u.data ++ ';' :: t.data)) = none := rfl
  have hxbltest : xblTest ('X':: 'B':: 'L':: '3':: '.':: '0':: ' ':: 'x':: '='::(u.data ++ ';' :: t.data)) = true := by
    simp [xblTest, matchCI, jsWs]
  have hA : (u.data ++ ';' :: t.data).takeWhile (fun ch => !(ch == ';')) = u.data :=
    takeWhile_semi _ _ husemi
  have hB : (u.data ++ ';' :: t.data).dropWhile (fun ch => !(ch == ';')) = ';' :: t.data :=
    dropWhile_semi _ _ husemi
  have hall : t.data.all (fun ch => !lineTerm ch) = true := by
    rw [List.all_eq_true]; intro x hx; simp [htlt x hx]
  have hxblmatch : xblMatch ('X':: 'B':: 'L':: '3':: '.':: '0':: ' ':: 'x':: '='::(u.data ++ ';' :: t.data))
      = some (u.data, t.data) := by
    simp only [xblMatch]
    simp +decide [matchCI, jsWs, List.dropWhile_cons, hA, hB, hall, hu, ht]
  unfold normalizeToken
  rw [hdata]
  simp only [htrim0, hbearer, hxbltest, hxblmatch, htmc, httr, if_true]

/-- Claim C7 (witness): the amended round trip at `uhs = "myuhs"`,
`token = "tokval"`. -/
theorem claim_C7_witness :
    normalizeToken ("XBL3.0 x=" ++ "myuhs" ++ ";" ++ "tokval") =
      { raw := "tokval", prefixStr := some "XBL3.0", uhs := some "myuhs" } :=
  claim_C7 "myuhs" "tokval" (by decide) (by decide) (by decide) (by decide)
    (by decide) (by decide) (by decide) (by decide)

/-- Claim C6: `decodeOne` is a total function returning an
`{ok, header, payload, meta}` record, and `ok = false` holds exactly when
no strategy produced a result: the manual compact split failed, the
generic `jwt.decode` second opinion failed, and the opaque fallback's
length condition does not hold. -/
theorem claim_C6 (pj : String → Option JsObj) (jdec : String → Option JwtDec)
    (now : Int) (input : String) :
    (decodeOne pj jdec now input).ok = false ↔
      (decodeCompact pj (normalizeToken input).raw = none ∧
       jdec (normalizeToken input).raw = none ∧
       (jsTrimL (normalizeToken input).raw.data).length < 24) := by
  unfold decodeOne
  rcases hcp : decodeCompact pj (normalizeToken input).raw with _ | cr
  · rcases hjd : jdec (normalizeToken input).raw with _ | d
    · by_cases hlen : 24 ≤ (jsTrimL (normalizeToken input).raw.data).length
      · simp [decodeStage1, hcp, hjd, hlen]
      · simp [decodeStage1, hcp, hjd, hlen]; omega
    · simp [decodeStage1, hcp, hjd]
  · rcases cr with ⟨h, p⟩ | h
    · simp [decodeStage1, hcp]
    · simp [decodeStage1, hcp]

/-- Claim C5: for every input on which both the compact split (3-segment
JWS and 5-segment JWE) and the generic compact decoder fail, `decodeOne`
classifies the token as opaque exactly when the prefix-stripped string is
at least 24 characters long, and then returns `ok = true`,
`kind = "OPAQUE"`, `header = {typ: "OpaqueToken"}` and
`payload = {length}`. -/
theorem claim_C5 (pj : String → Option JsObj) (jdec : String → Option JwtDec)
    (now : Int) (input : String)
    (h1 : decodeCompact pj (normalizeToken input).raw = none)
    (h2 : jdec (normalizeToken input).raw = none) :
    ((decodeOne pj jdec now input).ok = true ∧
     (decodeOne pj jdec now input).kind = some "OPAQUE" ∧
     (decodeOne pj jdec now input).header = some [("typ", JsVal.str "OpaqueToken")] ∧
     (decodeOne pj jdec now input).payload
        = some [("length", JsVal.num ((normalizeToken input).raw.length : Int))]) ↔
    24 ≤ (jsTrimL (normalizeToken input).raw.data).length := by
  by_cases hlen : 24 ≤ (jsTrimL (normalizeToken input).raw.data).length
  · simp [decodeOne, decodeStage1, h1, h2, hlen]
  · simp [decodeOne, decodeStage1, h1, h2, hlen]

/-- Claim C5 (witness): a 40-character alphanumeric-with-hyphen string
that is not valid compact-token syntax decodes with `ok = true` and
`meta.kind = "OPAQUE"`. -/
theorem claim_C5_witness :
    decodeCompact (fun _ => none) (normalizeToken "abcd-efgh-ijkl-mnop-qrst-uvwx-yz01-2345a").raw = none ∧
    ((decodeOne (fun _ => none) (fun _ => none) 0 "abcd-efgh-ijkl-mnop-qrst-uvwx-yz01-2345a").ok = true ∧
     (decodeOne (fun _ => none) (fun _ => none) 0 "abcd-efgh-ijkl-mnop-qrst-uvwx-yz01-2345a").kind
        = some "OPAQUE") := by
  refine ⟨by decide, ?_⟩
  have h := claim_C5 (fun _ => none) (fun _ => none) 0
    "abcd-efgh-ijkl-mnop-qrst-uvwx-yz01-2345a" (by decide) (by decide)
  have h2 := h.mpr (by decide)
  exact ⟨h2.1, h2.2.1⟩

/-! ## Claims C1 and C4 (credential chain) -/

/-- Claim C1: if any of the three XSTS token requests issued during
`completeLogin` fails, `completeLogin` returns an error, and the PlayFab
login, the Minecraft-token request and the entity-token requests are
never attempted (the call trace contains no late call); no bundle field
is returned since the result is `Except.error`. -/
theorem claim_C1 (env : AuthEnv) (td : MsTokenData) (xt : String)
    (hd : env.deviceTokenResp = .ok td)
    (hx : env.xblResp td.access_token = .ok xt)
    (hfail : exceptIsError (env.xstsResp xt "http://xboxlive.com") = true ∨
             exceptIsError (env.xstsResp xt "https://b980a380.minecraft.playfabapi.com/") = true ∨
             exceptIsError (env.xstsResp xt "rp://playfabapi.com/") = true) :
    exceptIsError (completeLogin env).1 = true ∧
    (completeLogin env).2.all (fun c => !isLateCall c) = true := by
  unfold completeLogin
  rw [hd]
  dsimp only
  unfold authChainTail
  rw [hx]
  dsimp only
  rcases h1 : env.xstsResp xt "http://xboxlive.com" with e1 | v1
  · simp [exceptIsError, isLateCall]
  · rcases h2 : env.xstsResp xt "https://b980a380.minecraft.playfabapi.com/" with e2 | v2
    · simp [exceptIsError, isLateCall]
    · rcases h3 : env.xstsResp xt "rp://playfabapi.com/" with e3 | v3
      · simp [exceptIsError, isLateCall]
      · exfalso
        rcases hfail with h | h | h <;> simp [h1, h2, h3, exceptIsError] at h

/-- Claim C1 (witness): against `envC1` the chain errors and issues no
late call. -/
theorem claim_C1_witness :
    exceptIsError (completeLogin envC1).1 = true ∧
    (completeLogin envC1).2.all (fun c => !isLateCall c) = true :=
  claim_C1 envC1 ⟨"msAT", some "msRT", some 3600⟩ "xbl" rfl rfl (Or.inl rfl)

/-- Whenever the chain tail completes with a bundle, the user fields are
the `|| {}`-defaulted first entry of the Xbox-audience XSTS token's
display claims, and the composite token templates that (possibly
`undefined`) `uhs`. -/
theorem authChainTail_fields (env : AuthEnv) (msA : String) (msR : Option String)
    (msE : Option Int) (calls0 : List UpCall) (xt : String) (info : XstsInfo)
    (b : AuthBundle)
    (hx : env.xblResp msA = .ok xt)
    (h1 : env.xstsResp xt "http://xboxlive.com" = .ok info)
    (hb : (authChainTail env msA msR msE calls0).1 = .ok b) :
    b.xuid = ((info.DisplayClaims.bind (fun dc => dc.xui.head?)).getD ⟨none, none, none⟩).xid ∧
    b.uhs = ((info.DisplayClaims.bind (fun dc => dc.xui.head?)).getD ⟨none, none, none⟩).uhs ∧
    b.gamertag = ((info.DisplayClaims.bind (fun dc => dc.xui.head?)).getD ⟨none, none, none⟩).gtg ∧
    b.xboxliveToken = "XBL3.0 x=" ++
      jsTemplate ((info.DisplayClaims.bind (fun dc => dc.xui.head?)).getD ⟨none, none, none⟩).uhs ++
      ";" ++ info.Token := by
  unfold authChainTail at hb
  rw [hx] at hb
  dsimp only at hb
  rw [h1] at hb
  dsimp only at hb
  rcases h2 : env.xstsResp xt "https://b980a380.minecraft.playfabapi.com/" with e2 | v2 <;>
    rw [h2] at hb <;> dsimp only at hb
  · simp at hb
  rcases h3 : env.xstsResp xt "rp://playfabapi.com/" with e3 | v3 <;> rw [h3] at hb <;>
    dsimp only at hb
  · simp at hb
  rcases h4 : env.loginResp ("XBL3.0 x=" ++
      jsTemplate ((info.DisplayClaims.bind (fun dc => dc.xui.head?)).getD ⟨none, none, none⟩).uhs ++
      ";" ++ v3.Token) env.titleId with e4 | lr <;> rw [h4] at hb <;> dsimp only at hb
  · simp at hb
  rcases h5 : env.mcResp lr.SessionTicket with e5 | mct <;> rw [h5] at hb <;> dsimp only at hb
  · simp at hb
  rcases h6 : env.entityResp lr.SessionTicket none with e6 | ed <;> rw [h6] at hb <;>
    dsimp only at hb
  · simp at hb
  by_cases h7 : jsTruthyS lr.PlayFabId = true
  · rw [if_pos h7] at hb
    rcases h8 : env.entityResp lr.SessionTicket
        (some ⟨"master_player_account", lr.PlayFabId.getD ""⟩) with e8 | med <;> rw [h8] at hb <;>
      dsimp only at hb
    · simp at hb
    simp only [Except.ok.injEq] at hb
    subst hb
    exact ⟨rfl, rfl, rfl, rfl⟩
  · rw [if_neg h7] at hb
    simp only [Except.ok.injEq] at hb
    subst hb
    exact ⟨rfl, rfl, rfl, rfl⟩

/-- Claim C4 (counterexample): with the display-claims array missing,
`completeLogin` does NOT abort: it completes successfully and interpolates
the literal `undefined` into the composite tokens (the code substitutes
`|| {}` instead of failing). -/
theorem claim_C4_cex :
    (∃ info, envC4.xstsResp "xbl" "http://xboxlive.com" = .ok info ∧ info.DisplayClaims = none) ∧
    exceptIsError (completeLogin envC4).1 = false ∧
    (completeLogin envC4).1.toOption.map (fun b => b.xboxliveToken)
      = some "XBL3.0 x=undefined;xstsTok" := by
  exact ⟨⟨⟨"xstsTok", none⟩, rfl, rfl⟩, by decide, by decide⟩

/-- Claim C4 (amended): during `completeLogin` and `refreshLogin` the
`{xuid, uhs, gamertag}` values are extracted from the first entry of the
Xbox-audience XSTS token's display-claims array, with an empty object
substituted when the array is missing; the chain does not abort in that
case — the undefined fields flow into the bundle and the composite
tokens interpolate `undefined`. -/
theorem claim_C4 :
    (∀ (env : AuthEnv) (td : MsTokenData) (xt : String) (info : XstsInfo) (b : AuthBundle),
      env.deviceTokenResp = .ok td →
      env.xblResp td.access_token = .ok xt →
      env.xstsResp xt "http://xboxlive.com" = .ok info →
      (completeLogin env).1 = .ok b →
      b.xuid = ((info.DisplayClaims.bind (fun dc => dc.xui.head?)).getD ⟨none, none, none⟩).xid ∧
      b.uhs = ((info.DisplayClaims.bind (fun dc => dc.xui.head?)).getD ⟨none, none, none⟩).uhs ∧
      b.gamertag = ((info.DisplayClaims.bind (fun dc => dc.xui.head?)).getD ⟨none, none, none⟩).gtg ∧
      b.xboxliveToken = "XBL3.0 x=" ++
        jsTemplate ((info.DisplayClaims.bind (fun dc => dc.xui.head?)).getD ⟨none, none, none⟩).uhs ++
        ";" ++ info.Token) ∧
    (∀ (env : AuthEnv) (rIn : String) (td : MsTokenData) (xt : String) (info : XstsInfo)
        (b : AuthBundle),
      env.refreshTokenResp = .ok td →
      env.xblResp td.access_token = .ok xt →
      env.xstsResp xt "http://xboxlive.com" = .ok info →
      (refreshLogin env rIn).1 = .ok b →
      b.xuid = ((info.DisplayClaims.bind (fun dc => dc.xui.head?)).getD ⟨none, none, none⟩).xid ∧
      b.uhs = ((info.DisplayClaims.bind (fun dc => dc.xui.head?)).getD ⟨none, none, none⟩).uhs ∧
      b.gamertag = ((info.DisplayClaims.bind (fun dc => dc.xui.head?)).getD ⟨none, none, none⟩).gtg ∧
      b.xboxliveToken = "XBL3.0 x=" ++
        jsTemplate ((info.DisplayClaims.bind (fun dc => dc.xui.head?)).getD ⟨none, none, none⟩).uhs ++
        ";" ++ info.Token) := by
  constructor
  · intro env td xt info b hd hx h1 hb
    unfold completeLogin at hb
    rw [hd] at hb
    dsimp only at hb
    exact authChainTail_fields env td.access_token td.refresh_token td.expires_in _ xt info b hx h1 hb
  · intro env rIn td xt info b hd hx h1 hb
    unfold refreshLogin at hb
    rw [hd] at hb
    dsimp only at hb
    exact authChainTail_fields env td.access_token _ td.expires_in _ xt info b hx h1 hb

/-- Claim C4 (witness): the amended extraction at the concrete run
against `envC4`. -/
theorem claim_C4_witness :
    bundleC4.xuid = none ∧ bundleC4.uhs = none ∧ bundleC4.gamertag = none ∧
    bundleC4.xboxliveToken = "XBL3.0 x=undefined;xstsTok" := by
  have h := claim_C4.1 envC4 ⟨"msAT", some "msRT", some 3600⟩ "xbl" ⟨"xstsTok", none⟩
    bundleC4 rfl rfl rfl rfl
  simpa using h

/-- Claim C2 (counterexample): `getProfileSettings` is a version-fallback
call site, yet against an upstream that rejects version 3 with 403 and
accepts version 2 it FAILS without a second attempt (its fallback
triggers exactly on the non-401/403 failures). -/
theorem claim_C2_cex :
    stubRejectV3 3 = .error ⟨some 403⟩ ∧ stubRejectV3 2 = .ok () ∧
    exceptIsError (getProfileSettingsFetch stubRejectV3).1 = true ∧
    (getProfileSettingsFetch stubRejectV3).2 = [3] :=
  ⟨rfl, rfl, rfl, rfl⟩

/-- Claim C2 (amended): `getPeopleSocial` attempts the newest version (4)
first and retries once with version 3 exactly when the first attempt is
rejected with 401 or 403 (and in the 403-rejection scenario the call
succeeds with the second attempt on the older version), while
`getProfileSettings` inverts the trigger: it attempts version 3 first and
retries with version 2 exactly when the failure is NOT a 401/403. -/
theorem claim_C2 (α : Type) :
    (∀ call : Nat → Except UpstreamFailure α, (getPeopleSocial call).2.head? = some 4) ∧
    (∀ call : Nat → Except UpstreamFailure α,
      (getPeopleSocial call).2 = [4, 3] ↔
        ∃ f, call 4 = .error f ∧ (f.status = some 401 ∨ f.status = some 403)) ∧
    (∀ (call : Nat → Except UpstreamFailure α) (f : UpstreamFailure) (d : α),
      call 4 = .error f → f.status = some 403 → call 3 = .ok d →
      getPeopleSocial call = (.ok d, [4, 3])) ∧
    (∀ call : Nat → Except UpstreamFailure α, (getProfileSettingsFetch call).2.head? = some 3) ∧
    (∀ call : Nat → Except UpstreamFailure α,
      (getProfileSettingsFetch call).2 = [3, 2] ↔
        ∃ f, call 3 = .error f ∧ ¬(f.status = some 401 ∨ f.status = some 403)) := by
  refine ⟨?_, ?_, ?_, ?_, ?_⟩
  · intro call
    unfold getPeopleSocial
    rcases call 4 with f | d
    · dsimp only
      by_cases h : f.status = some 401 ∨ f.status = some 403
      · rw [if_pos h]; rcases call 3 with _ | _ <;> rfl
      · rw [if_neg h]; rfl
    · rfl
  · intro call
    rcases h4 : call 4 with f | d
    · by_cases hc : f.status = some 401 ∨ f.status = some 403
      · constructor
        · intro _; exact ⟨f, rfl, hc⟩
        · intro _
          unfold getPeopleSocial
          rw [h4]
          dsimp only
          rw [if_pos hc]
          rcases call 3 with _ | _ <;> rfl
      · constructor
        · intro hl
          exfalso
          unfold getPeopleSocial at hl
          rw [h4] at hl
          dsimp only at hl
          rw [if_neg hc] at hl
          simp at hl
        · rintro ⟨f', hf', hc'⟩
          injection hf' with e
          subst e
          exact absurd hc' hc
    · constructor
      · intro hl
        unfold getPeopleSocial at hl
        rw [h4] at hl
        dsimp only at hl
        simp at hl
      · rintro ⟨f', hf', _⟩
        simp at hf'
  · intro call f d h4 hst h3
    unfold getPeopleSocial
    rw [h4]
    dsimp only
    rw [if_pos (Or.inr hst), h3]
  · intro call
    unfold getProfileSettingsFetch
    rcases call 3 with f | d
    · dsimp only
      by_cases h : f.status = some 401 ∨ f.status = some 403
      · rw [if_pos h]; rfl
      · rw [if_neg h]; rcases call 2 with _ | _ <;> rfl
    · rfl
  · intro call
    rcases h3 : call 3 with f | d
    · by_cases hc : f.status = some 401 ∨ f.status = some 403
      · constructor
        · intro hl
          exfalso
          unfold getProfileSettingsFetch at hl
          rw [h3] at hl
          dsimp only at hl
          rw [if_pos hc] at hl
          simp at hl
        · rintro ⟨f', hf', hc'⟩
          injection hf' with e
          subst e
          exact absurd hc hc'
      · constructor
        · intro _; exact ⟨f, rfl, hc⟩
        · intro _
          unfold getProfileSettingsFetch
          rw [h3]
          dsimp only
          rw [if_neg hc]
          rcases call 2 with _ | _ <;> rfl
    · constructor
      · intro hl
        unfold getProfileSettingsFetch at hl
        rw [h3] at hl
        dsimp only at hl
        simp at hl
      · rintro ⟨f', hf', _⟩
        simp at hf'

/-- Claim C2 (witness): the 403-fallback scenario at `getPeopleSocial`
against a concrete stub. -/
theorem claim_C2_witness :
    getPeopleSocial stubRejectV4 = (.ok (), [4, 3]) :=
  (claim_C2 Unit).2.2.1 stubRejectV4 ⟨some 403⟩ () rfl rfl rfl

/-- Claim C8 (counterexample): `getMCToken` maps an upstream 404 (a 4xx
other than 401/403) to `unauthorized`, not to a client error, and
`getXBLToken` maps an upstream 401 to `internal`, not `unauthorized`. -/
theorem claim_C8_cex :
    errCodeOf (getMCToken "S" (.error ⟨some 404⟩)) = some "UNAUTHORIZED" ∧
    ("UNAUTHORIZED" : String) ≠ "BAD_REQUEST" ∧
    errCodeOf (getXBLToken (.error ⟨some 401⟩)) = some "INTERNAL" ∧
    ("INTERNAL" : String) ≠ "UNAUTHORIZED" := by decide

/-- Claim C8 (amended): `getXBLToken` wraps EVERY provider failure as an
internal error; `getMCToken` maps 401 to unauthorized, 403 to forbidden,
any other 4xx to unauthorized, and network failures or 5xx to internal. -/
theorem claim_C8 :
    (∀ f : UpstreamFailure, errCodeOf (getXBLToken (.error f)) = some "INTERNAL") ∧
    (∀ (sess : String) (f : UpstreamFailure), sess ≠ "" → f.status = some 401 →
      errCodeOf (getMCToken sess (.error f)) = some "UNAUTHORIZED") ∧
    (∀ (sess : String) (f : UpstreamFailure), sess ≠ "" → f.status = some 403 →
      errCodeOf (getMCToken sess (.error f)) = some "FORBIDDEN") ∧
    (∀ (sess : String) (f : UpstreamFailure) (s : Nat), sess ≠ "" → f.status = some s →
      s ≠ 401 → s ≠ 403 → 400 ≤ s → s < 500 →
      errCodeOf (getMCToken sess (.error f)) = some "UNAUTHORIZED") ∧
    (∀ (sess : String) (f : UpstreamFailure) (s : Nat), sess ≠ "" → f.status = some s →
      500 ≤ s → errCodeOf (getMCToken sess (.error f)) = some "INTERNAL") ∧
    (∀ sess : String, sess ≠ "" →
      errCodeOf (getMCToken sess (.error ⟨none⟩)) = some "INTERNAL") := by
  refine ⟨?_, ?_, ?_, ?_, ?_, ?_⟩
  · intro f; rfl
  · intro sess f hs h401
    simp [getMCToken, hs, h401, errCodeOf, unauthorized]
  · intro sess f hs h403
    have hne : f.status ≠ some 401 := by rw [h403]; decide
    simp [getMCToken, hs, h403, hne, errCodeOf, forbidden]
  · intro sess f s hs hst h401 h403 hge hlt
    have hne1 : f.status ≠ some 401 := by rw [hst]; simp [h401]
    have hne3 : f.status ≠ some 403 := by rw [hst]; simp [h403]
    have h4 : is4xx f.status = true := by
      rw [hst]; simp [is4xx]; omega
    simp [getMCToken, hs, hne1, hne3, h4, errCodeOf, unauthorized]
  · intro sess f s hs hst hge
    have hne1 : f.status ≠ some 401 := by rw [hst]; simp; omega
    have hne3 : f.status ≠ some 403 := by rw [hst]; simp; omega
    have h4 : is4xx f.status = false := by
      rw [hst]; simp [is4xx]; omega
    simp [getMCToken, hs, hne1, hne3, h4, errCodeOf, internal]
  · intro sess hs
    simp [getMCToken, hs, is4xx, errCodeOf, internal]

/-- Claim C8 (witness): the other-4xx branch of the amended mapping at a
concrete 418 failure. -/
theorem claim_C8_witness :
    errCodeOf (getMCToken "S" (.error ⟨some 418⟩)) = some "UNAUTHORIZED" :=
  claim_C8.2.2.2.1 "S" ⟨some 418⟩ 418 (by decide) rfl (by decide) (by decide)
    (by decide) (by decide)

/-- Claim C9: `setCachedVersions` merges into an existing entry —
supplying only one of the two (truthy) stamps updates that stamp and
leaves the other stamp's cached value unchanged. -/
theorem claim_C9 (cache : VersionCache) (tok : String) (e : VersionEntry)
    (newL newI : Option String) (hc : cache tok = some e) :
    (jsTruthyS newL = true →
      getCachedVersions (setCachedVersions cache tok newL none) tok
        = some ⟨newL, e.inventoryVersion⟩) ∧
    (jsTruthyS newI = true →
      getCachedVersions (setCachedVersions cache tok none newI) tok
        = some ⟨e.listVersion, newI⟩) := by
  have hnone : jsTruthyS none = false := rfl
  constructor <;> intro h <;>
    simp [getCachedVersions, setCachedVersions, jsOrOpt, hc, h, hnone]

/-- Claim C9 (witness): partial updates against a concrete cache leave
the untouched stamp intact. -/
theorem claim_C9_witness :
    getCachedVersions (setCachedVersions cacheC9 "tok" (some "L2") none) "tok"
      = some ⟨some "L2", some "I1"⟩ ∧
    getCachedVersions (setCachedVersions cacheC9 "tok" none (some "I2")) "tok"
      = some ⟨some "L1", some "I2"⟩ := by
  have h := claim_C9 cacheC9 "tok" ⟨some "L1", some "I1"⟩ (some "L2") (some "I2") rfl
  exact ⟨h.1 (by decide), h.2 (by decide)⟩

/-- Claim C10: in `cached`, a producer result of `undefined` is never
memoized — the stored value is returned only when the lookup is strictly
not `undefined`, so an `undefined`-producing call leaves the next call
with the same key to re-execute its producer, while a defined value is
stored and returned unchanged within the TTL. -/
theorem claim_C10 {α : Type} (key : String) (f1 f2 : Unit → Option α)
    (ttl ttl2 now now2 : Int) (st : TtlStore α) (hmiss : st key = none) :
    (f1 () = none →
      (cached key f1 ttl now st).1 = none ∧
      (cached key f2 ttl2 now2 (cached key f1 ttl now st).2).1 = f2 ()) ∧
    (∀ v, f1 () = some v → now2 < now + ttl →
      (cached key f1 ttl now st).1 = some v ∧
      (cached key f2 ttl2 now2 (cached key f1 ttl now st).2).1 = some v) := by
  constructor
  · intro h1
    constructor
    · simp [cached, hmiss, h1]
    · simp [cached, hmiss, h1]
  · intro v h1 hlt
    constructor
    · simp [cached, hmiss, h1]
    · simp [cached, hmiss, h1, hlt]

/-- Claim C10 (witness): both branches at concrete producers over an
empty store. -/
theorem claim_C10_witness :
    ((cached "k" (fun _ => (none : Option Nat)) 30000 0 (fun _ => none)).1 = none ∧
     (cached "k" (fun _ => some 5) 30000 10
        (cached "k" (fun _ => (none : Option Nat)) 30000 0 (fun _ => none)).2).1 = some 5) ∧
    ((cached "k" (fun _ => some 7) 30000 0 (fun _ => (none : Option (Nat × Int)))).1 = some 7 ∧
     (cached "k" (fun _ => some 5) 30000 10
        (cached "k" (fun _ => some 7) 30000 0 (fun _ => none)).2).1 = some 7) := by
  constructor
  · have h := claim_C10 "k" (fun _ => (none : Option Nat)) (fun _ => some 5)
      30000 30000 0 10 (fun _ => none) rfl
    exact h.1 rfl
  · have h := claim_C10 "k" (fun _ => some 7) (fun _ => some 5)
      30000 30000 0 10 (fun _ => none) rfl
    exact h.2 7 rfl (by decide)

theorem mem_objKeys_objSet (out : OutMap) (k j : String) (v : Option String) :
    j ∈ objKeys (objSet out k v) ↔ j ∈ objKeys out ∨ j = k := by
  unfold objKeys objSet
  by_cases h : out.any (fun p => p.1 = k) = true
  · rw [if_pos h]
    have hk : k ∈ out.map Prod.fst := by
      rcases List.any_eq_true.mp h with ⟨p, hp, he⟩
      simp only [decide_eq_true_eq] at he
      exact List.mem_map.mpr ⟨p, hp, he⟩
    have hmap : (out.map (fun p => if p.1 = k then (k, v) else p)).map Prod.fst
        = out.map Prod.fst := by
      rw [List.map_map]
      apply List.map_congr_left
      intro p _
      by_cases hpk : p.1 = k
      · simp [hpk]
      · simp [hpk]
    rw [hmap]
    constructor
    · exact Or.inl
    · rintro (hj | rfl)
      · exact hj
      · exact hk
  · rw [if_neg h]
    simp

theorem mem_objKeys_objSetDflt (out : OutMap) (k j : String) (v : Option String) :
    j ∈ objKeys (objSetDflt out k v) ↔ j ∈ objKeys out ∨ j = k := by
  unfold objKeys objSetDflt
  by_cases h : out.any (fun p => p.1 = k) = true
  · rw [if_pos h]
    have hk : k ∈ out.map Prod.fst := by
      rcases List.any_eq_true.mp h with ⟨p, hp, he⟩
      simp only [decide_eq_true_eq] at he
      exact List.mem_map.mpr ⟨p, hp, he⟩
    constructor
    · exact Or.inl
    · rintro (hj | rfl)
      · exact hj
      · exact hk
  · rw [if_neg h]
    simp

theorem nodup_objKeys_objSet (out : OutMap) (k : String) (v : Option String)
    (h : (objKeys out).Nodup) : (objKeys (objSet out k v)).Nodup := by
  unfold objKeys objSet
  by_cases ha : out.any (fun p => p.1 = k) = true
  · rw [if_pos ha]
    have hmap : (out.map (fun p => if p.1 = k then (k, v) else p)).map Prod.fst
        = out.map Prod.fst := by
      rw [List.map_map]
      apply List.map_congr_left
      intro p _
      by_cases hpk : p.1 = k
      · simp [hpk]
      · simp [hpk]
    rw [hmap]
    exact h
  · rw [if_neg ha]
    have hk : k ∉ out.map Prod.fst := by
      intro hmem
      rcases List.mem_map.mp hmem with ⟨p, hp, he⟩
      exact ha (List.any_eq_true.mpr ⟨p, hp, by simp [he]⟩)
    simp only [List.map_append, List.map_cons, List.map_nil]
    rw [List.nodup_append]
    refine ⟨h, List.nodup_singleton k, ?_⟩
    intro a ha' hb
    simp only [List.mem_cons, List.not_mem_nil, or_false] at hb
    subst hb
    exact hk ha'

theorem nodup_objKeys_objSetDflt (out : OutMap) (k : String) (v : Option String)
    (h : (objKeys out).Nodup) : (objKeys (objSetDflt out k v)).Nodup := by
  unfold objKeys objSetDflt
  by_cases ha : out.any (fun p => p.1 = k) = true
  · rw [if_pos ha]; exact h
  · rw [if_neg ha]
    have hk : k ∉ out.map Prod.fst := by
      intro hmem
      rcases List.mem_map.mp hmem with ⟨p, hp, he⟩
      exact ha (List.any_eq_true.mpr ⟨p, hp, by simp [he]⟩)
    simp only [List.map_append, List.map_cons, List.map_nil]
    rw [List.nodup_append]
    refine ⟨h, List.nodup_singleton k, ?_⟩
    intro a ha' hb
    simp only [List.mem_cons, List.not_mem_nil, or_false] at hb
    subst hb
    exact hk ha'

theorem mem_objKeys_mergeUsers (users : List ProfileUser) :
    ∀ (out : OutMap) (j : String), j ∈ objKeys (mergeUsers out users) →
      j ∈ objKeys out ∨ ∃ u ∈ users, u.id = some j := by
  induction users with
  | nil => intro out j h; exact Or.inl h
  | cons u rest ih =>
    intro out j h
    unfold mergeUsers at h
    rw [List.foldl_cons] at h
    have h' := ih _ j h
    rcases h' with h' | ⟨u', hu', hid⟩
    · by_cases ht : jsTruthyS u.id = true
      · rw [if_pos ht] at h'
        rcases (mem_objKeys_objSet _ _ _ _).mp h' with h'' | rfl
        · exact Or.inl h''
        · rcases hid : u.id with _ | s
          · rw [hid] at ht; simp [jsTruthyS] at ht
          · exact Or.inr ⟨u, List.mem_cons_self u rest, by rw [hid]; rfl⟩
      · rw [if_neg ht] at h'
        exact Or.inl h'
    · exact Or.inr ⟨u', List.mem_cons_of_mem u hu', hid⟩

theorem nodup_objKeys_mergeUsers (users : List ProfileUser) :
    ∀ out : OutMap, (objKeys out).Nodup → (objKeys (mergeUsers out users)).Nodup := by
  induction users with
  | nil => intro out h; exact h
  | cons u rest ih =>
    intro out h
    unfold mergeUsers
    rw [List.foldl_cons]
    apply ih
    by_cases ht : jsTruthyS u.id = true
    · rw [if_pos ht]; exact nodup_objKeys_objSet _ _ _ h
    · rw [if_neg ht]; exact h

theorem chunksOfAux_subset (n : Nat) :
    ∀ (fuel : Nat) (l c : List String), c ∈ chunksOfAux n fuel l → ∀ x ∈ c, x ∈ l := by
  intro fuel
  induction fuel with
  | zero => intro l c hc; simp [chunksOfAux] at hc
  | succ f ih =>
    intro l c hc x hx
    cases l with
    | nil => simp [chunksOfAux] at hc
    | cons a t =>
      unfold chunksOfAux at hc
      rcases List.mem_cons.mp hc with rfl | hc'
      · exact List.take_subset n _ hx
      · exact List.drop_subset n _ (ih _ c hc' x hx)

theorem chunksOf_subset (n : Nat) (l c : List String) (hc : c ∈ chunksOf n l) :
    ∀ x ∈ c, x ∈ l :=
  chunksOfAux_subset n l.length l c hc

theorem bulkPhase_keys
    (bulk : List String → BulkVariant → Except UpstreamFailure ProfileUsersResp)
    (A : List String) :
    ∀ (chunks : List (List String)) (out : OutMap),
      (∀ c ∈ chunks, ∀ v data, bulk c v = .ok data →
        ∀ u ∈ data.profileUsers, ∀ x, u.id = some x → x ∈ A) →
      (∀ j ∈ objKeys out, j ∈ A) →
      ∀ j ∈ objKeys (bulkPhase bulk chunks out).1, j ∈ A := by
  intro chunks
  induction chunks with
  | nil => intro out _ hout j hj; exact hout j hj
  | cons chunk rest ih =>
    intro out hb hout j hj
    have hmerge : ∀ data, bulk chunk BulkVariant.v3 = .ok data ∨
        bulk chunk BulkVariant.v2 = .ok data ∨ bulk chunk BulkVariant.v2query = .ok data →
        ∀ j' ∈ objKeys (mergeUsers out data.profileUsers), j' ∈ A := by
      intro data hdata j' hj'
      rcases mem_objKeys_mergeUsers _ _ _ hj' with h | ⟨u, hu, hid⟩
      · exact hout j' h
      · rcases hdata with h | h | h <;>
          exact hb chunk (List.mem_cons_self _ _) _ data h u hu j' hid
    unfold bulkPhase at hj
    rcases h3 : bulk chunk BulkVariant.v3 with e3 | d3
    · rw [h3] at hj
      dsimp only at hj
      by_cases hst : e3.status = some 400 ∨ e3.status = some 401 ∨ e3.status = some 403
      · rw [if_pos hst] at hj
        rcases h2 : bulk chunk BulkVariant.v2 with e2 | d2
        · rw [h2] at hj
          dsimp only at hj
          rcases hq : bulk chunk BulkVariant.v2query with eq' | dq
          · rw [hq] at hj
            exact hout j hj
          · rw [hq] at hj
            exact ih _ (fun c hc => hb c (List.mem_cons_of_mem _ hc))
              (hmerge dq (Or.inr (Or.inr hq))) j hj
        · rw [h2] at hj
          exact ih _ (fun c hc => hb c (List.mem_cons_of_mem _ hc))
            (hmerge d2 (Or.inr (Or.inl h2))) j hj
      · rw [if_neg hst] at hj
        exact hout j hj
    · rw [h3] at hj
      exact ih _ (fun c hc => hb c (List.mem_cons_of_mem _ hc))
        (hmerge d3 (Or.inl h3)) j hj

theorem bulkPhase_nodup
    (bulk : List String → BulkVariant → Except UpstreamFailure ProfileUsersResp) :
    ∀ (chunks : List (List String)) (out : OutMap),
      (objKeys out).Nodup → (objKeys (bulkPhase bulk chunks out).1).Nodup := by
  intro chunks
  induction chunks with
  | nil => intro out h; exact h
  | cons chunk rest ih =>
    intro out hout
    unfold bulkPhase
    rcases h3 : bulk chunk BulkVariant.v3 with e3 | d3
    · dsimp only
      by_cases hst : e3.status = some 400 ∨ e3.status = some 401 ∨ e3.status = some 403
      · rw [if_pos hst]
        rcases h2 : bulk chunk BulkVariant.v2 with e2 | d2
        · dsimp only
          rcases hq : bulk chunk BulkVariant.v2query with eq' | dq
          · exact hout
          · exact ih _ (nodup_objKeys_mergeUsers _ _ hout)
        · exact ih _ (nodup_objKeys_mergeUsers _ _ hout)
      · rw [if_neg hst]
        exact hout
    · exact ih _ (nodup_objKeys_mergeUsers _ _ hout)

theorem head?_exists {l : List ProfileUser} (h : l ≠ []) :
    ∃ u, l.head? = some u ∧ u ∈ l := by
  cases l with
  | nil => exact absurd rfl h
  | cons a t => exact ⟨a, rfl, List.mem_cons_self a t⟩

theorem workerStep_mono (single : String → Nat → Except UpstreamFailure ProfileUsersResp)
    (out : OutMap) (x j : String) (hj : j ∈ objKeys out) :
    j ∈ objKeys (workerStep single out x) := by
  unfold workerStep
  rcases single x 2 with e | data <;> dsimp only
  · rcases single x 3 with e' | data' <;> dsimp only
    · exact (mem_objKeys_objSetDflt _ _ _ _).mpr (Or.inl hj)
    · rcases data'.profileUsers.head? with _ | u <;> dsimp only
      · exact hj
      · by_cases ht : jsTruthyS u.id = true
        · rw [if_pos ht]
          exact (mem_objKeys_objSet _ _ _ _).mpr (Or.inl hj)
        · rw [if_neg ht]; exact hj
  · rcases data.profileUsers.head? with _ | u <;> dsimp only
    · exact hj
    · by_cases ht : jsTruthyS u.id = true
      · rw [if_pos ht]
        exact (mem_objKeys_objSet _ _ _ _).mpr (Or.inl hj)
      · rw [if_neg ht]; exact hj

theorem workerStep_sub (single : String → Nat → Except UpstreamFailure ProfileUsersResp)
    (hs : ∀ x v data, single x v = .ok data →
      data.profileUsers ≠ [] ∧ ∀ u ∈ data.profileUsers, u.id = some x)
    (out : OutMap) (x j : String) (hj : j ∈ objKeys (workerStep single out x)) :
    j ∈ objKeys out ∨ j = x := by
  unfold workerStep at hj
  rcases h2 : single x 2 with e2 | d2 <;> rw [h2] at hj <;> dsimp only at hj
  · rcases h3 : single x 3 with e3 | d3 <;> rw [h3] at hj <;> dsimp only at hj
    · exact (mem_objKeys_objSetDflt _ _ _ _).mp hj
    · obtain ⟨hne, hids⟩ := hs x 3 d3 h3
      obtain ⟨u, hu, hmem⟩ := head?_exists hne
      rw [hu] at hj
      dsimp only at hj
      have hid : u.id = some x := hids u hmem
      by_cases ht : jsTruthyS u.id = true
      · rw [if_pos ht] at hj
        rcases (mem_objKeys_objSet _ _ _ _).mp hj with h | rfl
        · exact Or.inl h
        · right
          rw [hid]
          rfl
      · rw [if_neg ht] at hj
        exact Or.inl hj
  · obtain ⟨hne, hids⟩ := hs x 2 d2 h2
    obtain ⟨u, hu, hmem⟩ := head?_exists hne
    rw [hu] at hj
    dsimp only at hj
    have hid : u.id = some x := hids u hmem
    by_cases ht : jsTruthyS u.id = true
    · rw [if_pos ht] at hj
      rcases (mem_objKeys_objSet _ _ _ _).mp hj with h | rfl
      · exact Or.inl h
      · right
        rw [hid]
        rfl
    · rw [if_neg ht] at hj
      exact Or.inl hj

theorem workerStep_self (single : String → Nat → Except UpstreamFailure ProfileUsersResp)
    (hs : ∀ x v data, single x v = .ok data →
      data.profileUsers ≠ [] ∧ ∀ u ∈ data.profileUsers, u.id = some x)
    (out : OutMap) (x : String) (hx : x ≠ "") :
    x ∈ objKeys (workerStep single out x) := by
  unfold workerStep
  rcases h2 : single x 2 with e2 | d2 <;> dsimp only
  · rcases h3 : single x 3 with e3 | d3 <;> dsimp only
    · exact (mem_objKeys_objSetDflt _ _ _ _).mpr (Or.inr rfl)
    · obtain ⟨hne, hids⟩ := hs x 3 d3 h3
      obtain ⟨u, hu, hmem⟩ := head?_exists hne
      rw [hu]
      dsimp only
      have hid : u.id = some x := hids u hmem
      have ht : jsTruthyS u.id = true := by rw [hid]; simp [jsTruthyS, hx]
      rw [if_pos ht]
      apply (mem_objKeys_objSet _ _ _ _).mpr
      right
      rw [hid]
      rfl
  · obtain ⟨hne, hids⟩ := hs x 2 d2 h2
    obtain ⟨u, hu, hmem⟩ := head?_exists hne
    rw [hu]
    dsimp only
    have hid : u.id = some x := hids u hmem
    have ht : jsTruthyS u.id = true := by rw [hid]; simp [jsTruthyS, hx]
    rw [if_pos ht]
    apply (mem_objKeys_objSet _ _ _ _).mpr
    right
    rw [hid]
    rfl

theorem worker_fold_mono (single : String → Nat → Except UpstreamFailure ProfileUsersResp) :
    ∀ (l : List String) (out : OutMap) (j : String), j ∈ objKeys out →
      j ∈ objKeys (l.foldl (workerStep single) out) := by
  intro l
  induction l with
  | nil => intro out j h; exact h
  | cons x rest ih =>
    intro out j h
    rw [List.foldl_cons]
    exact ih _ j (workerStep_mono single out x j h)

theorem worker_fold_mem (single : String → Nat → Except UpstreamFailure ProfileUsersResp)
    (hs : ∀ x v data, single x v = .ok data →
      data.profileUsers ≠ [] ∧ ∀ u ∈ data.profileUsers, u.id = some x) :
    ∀ (l : List String), (∀ x ∈ l, x ≠ "") → ∀ (out : OutMap) (j : String),
      (j ∈ objKeys (l.foldl (workerStep single) out) ↔ j ∈ objKeys out ∨ j ∈ l) := by
  intro l
  induction l with
  | nil => intro _ out j; simp
  | cons x rest ih =>
    intro hl out j
    rw [List.foldl_cons]
    constructor
    · intro h
      rcases (ih (fun y hy => hl y (List.mem_cons_of_mem _ hy)) _ j).mp h with h' | h'
      · rcases workerStep_sub single hs out x j h' with h'' | rfl
        · exact Or.inl h''
        · exact Or.inr (List.mem_cons_self _ _)
      · exact Or.inr (List.mem_cons_of_mem _ h')
    · intro h
      have ihx := ih (fun y hy => hl y (List.mem_cons_of_mem _ hy)) (workerStep single out x) j
      rcases h with h | h
      · exact ihx.mpr (Or.inl (workerStep_mono single out x j h))
      · rcases List.mem_cons.mp h with rfl | h'
        · exact ihx.mpr (Or.inl (workerStep_self single hs out j
            (hl j (List.mem_cons_self _ _))))
        · exact ihx.mpr (Or.inr h')

theorem bulkPhase_allfail
    (bulk : List String → BulkVariant → Except UpstreamFailure ProfileUsersResp)
    (hallb : ∀ c v, exceptIsError (bulk c v) = true)
    (chunk : List String) (rest : List (List String)) (out : OutMap) :
    bulkPhase bulk (chunk :: rest) out = (out, false) := by
  unfold bulkPhase
  rcases h3 : bulk chunk BulkVariant.v3 with e3 | d3
  · dsimp only
    by_cases hst : e3.status = some 400 ∨ e3.status = some 401 ∨ e3.status = some 403
    · rw [if_pos hst]
      rcases h2 : bulk chunk BulkVariant.v2 with e2 | d2
      · dsimp only
        rcases hq : bulk chunk BulkVariant.v2query with eq' | dq
        · rfl
        · exact absurd (hallb chunk BulkVariant.v2query) (by rw [hq]; simp [exceptIsError])
      · exact absurd (hallb chunk BulkVariant.v2) (by rw [h2]; simp [exceptIsError])
    · rw [if_neg hst]
  · exact absurd (hallb chunk BulkVariant.v3) (by rw [h3]; simp [exceptIsError])

theorem workerStep_allfail
    (single : String → Nat → Except UpstreamFailure ProfileUsersResp)
    (halls : ∀ x v, exceptIsError (single x v) = true) (out : OutMap) (x : String) :
    workerStep single out x = objSetDflt out x none := by
  unfold workerStep
  rcases h2 : single x 2 with e2 | d2
  · rcases h3 : single x 3 with e3 | d3
    · rfl
    · exact absurd (halls x 3) (by rw [h3]; simp [exceptIsError])
  · exact absurd (halls x 2) (by rw [h2]; simp [exceptIsError])

theorem objSetDflt_none_vals (out : OutMap) (k : String)
    (h : ∀ p ∈ out, p.2 = (none : Option String)) :
    ∀ p ∈ objSetDflt out k none, p.2 = none := by
  unfold objSetDflt
  by_cases ha : out.any (fun p => p.1 = k) = true
  · rw [if_pos ha]; exact h
  · rw [if_neg ha]
    intro p hp
    rcases List.mem_append.mp hp with h' | h'
    · exact h p h'
    · simp only [List.mem_cons, List.not_mem_nil, or_false] at h'
      rw [h']

theorem fold_allfail_none_vals
    (single : String → Nat → Except UpstreamFailure ProfileUsersResp)
    (halls : ∀ x v, exceptIsError (single x v) = true) :
    ∀ (l : List String) (out : OutMap), (∀ p ∈ out, p.2 = (none : Option String)) →
      ∀ p ∈ l.foldl (workerStep single) out, p.2 = none := by
  intro l
  induction l with
  | nil => intro out h; exact h
  | cons x rest ih =>
    intro out h
    rw [List.foldl_cons, workerStep_allfail single halls out x]
    exact ih _ (objSetDflt_none_vals out x h)

/-- Claim C3: under the assumptions that a successful bulk response only
contains identifiers of the requested chunk and a successful single-item
response carries the requested identifier, `getGamertagsBatch` returns a
map whose key set equals the deduplicated, stringified (falsy-filtered)
input set, regardless of how many bulk or individual lookups fail; and
when every lookup fails, each input identifier still receives an explicit
`null` entry. -/
theorem claim_C3
    (bulk : List String → BulkVariant → Except UpstreamFailure ProfileUsersResp)
    (single : String → Nat → Except UpstreamFailure ProfileUsersResp)
    (xuids : List String)
    (hb : ∀ c v data, bulk c v = .ok data →
      ∀ u ∈ data.profileUsers, ∀ x, u.id = some x → x ∈ c)
    (hs : ∀ x v data, single x v = .ok data →
      data.profileUsers ≠ [] ∧ ∀ u ∈ data.profileUsers, u.id = some x) :
    (∀ k, k ∈ objKeys (getGamertagsBatch bulk single xuids) ↔
      k ∈ xuids.filter (fun x => x ≠ "")) ∧
    ((∀ c v, exceptIsError (bulk c v) = true) → (∀ x v, exceptIsError (single x v) = true) →
      ∀ x ∈ xuids.filter (fun x => x ≠ ""), (x, none) ∈ getGamertagsBatch bulk single xuids) := by
  have hAne : ∀ x ∈ xuids.filter (fun x => x ≠ ""), x ≠ "" := by
    intro x hx
    exact of_decide_eq_true (List.mem_filter.mp hx).2
  constructor
  · intro k
    unfold getGamertagsBatch
    by_cases hemp : (xuids.filter (fun x => x ≠ "")).isEmpty = true
    · rw [if_pos hemp]
      have hnil : xuids.filter (fun x => x ≠ "") = [] := by
        rwa [List.isEmpty_iff] at hemp
      rw [hnil]
      simp [objKeys]
    · rw [if_neg hemp]
      have hbkeys : ∀ j ∈ objKeys
          (bulkPhase bulk (chunksOf 100 (xuids.filter (fun x => x ≠ ""))) []).1,
          j ∈ xuids.filter (fun x => x ≠ "") := by
        apply bulkPhase_keys bulk
        · intro c hc v data hok u hu x hid
          exact chunksOf_subset 100 _ c hc x (hb c v data hok u hu x hid)
        · intro j hj
          simp [objKeys] at hj
      have hbnodup : (objKeys
          (bulkPhase bulk (chunksOf 100 (xuids.filter (fun x => x ≠ ""))) []).1).Nodup :=
        bulkPhase_nodup bulk _ [] (by simp [objKeys])
      by_cases hearly :
          (bulkPhase bulk (chunksOf 100 (xuids.filter (fun x => x ≠ ""))) []).2 = true ∧
          (bulkPhase bulk (chunksOf 100 (xuids.filter (fun x => x ≠ ""))) []).1.length
            = (xuids.filter (fun x => x ≠ "")).length
      · rw [if_pos hearly]
        have hsub : (objKeys
            (bulkPhase bulk (chunksOf 100 (xuids.filter (fun x => x ≠ ""))) []).1).toFinset
            ⊆ (xuids.filter (fun x => x ≠ "")).toFinset := by
          intro a ha
          rw [List.mem_toFinset] at ha ⊢
          exact hbkeys a ha
        have hklen : (objKeys
            (bulkPhase bulk (chunksOf 100 (xuids.filter (fun x => x ≠ ""))) []).1).length
            = (xuids.filter (fun x => x ≠ "")).length := by
          unfold objKeys
          rw [List.length_map]
          exact hearly.2
        have hcard : (xuids.filter (fun x => x ≠ "")).toFinset.card ≤
            (objKeys
              (bulkPhase bulk (chunksOf 100 (xuids.filter (fun x => x ≠ ""))) []).1).toFinset.card := by
          rw [List.toFinset_card_of_nodup hbnodup, hklen]
          exact List.toFinset_card_le _
        have heq := Finset.eq_of_subset_of_card_le hsub hcard
        constructor
        · intro hk
          exact hbkeys k hk
        · intro hk
          have h1 : k ∈ (xuids.filter (fun x => x ≠ "")).toFinset := List.mem_toFinset.mpr hk
          rw [← heq] at h1
          exact List.mem_toFinset.mp h1
      · rw [if_neg hearly]
        rw [worker_fold_mem single hs _ hAne _ k]
        constructor
        · rintro (h | h)
          · exact hbkeys k h
          · exact h
        · exact Or.inr
  · intro hallb halls x hx
    unfold getGamertagsBatch
    have hemp : (xuids.filter (fun x => x ≠ "")).isEmpty = false := by
      rcases hA : xuids.filter (fun x => x ≠ "") with _ | ⟨a, t⟩
      · rw [hA] at hx
        exact absurd hx (List.not_mem_nil x)
      · rfl
    rw [if_neg (by rw [hemp]; exact Bool.false_ne_true)]
    obtain ⟨c, rest, hcr⟩ : ∃ c rest,
        chunksOf 100 (xuids.filter (fun x => x ≠ "")) = c :: rest := by
      rcases hA : xuids.filter (fun x => x ≠ "") with _ | ⟨a, t⟩
      · rw [hA] at hx
        exact absurd hx (List.not_mem_nil x)
      · exact ⟨(a :: t).take 100, chunksOfAux 100 t.length ((a :: t).drop 100), rfl⟩
    rw [hcr, bulkPhase_allfail bulk hallb c rest []]
    rw [if_neg (by simp)]
    have hkey : x ∈ objKeys ((xuids.filter (fun x => x ≠ "")).foldl (workerStep single) []) := by
      rw [worker_fold_mem single hs _ hAne [] x]
      exact Or.inr hx
    have hvals := fold_allfail_none_vals single halls (xuids.filter (fun x => x ≠ "")) []
      (by intro p hp; exact absurd hp (List.not_mem_nil p))
    rcases List.mem_map.mp hkey with ⟨p, hp, hfst⟩
    have hpe : p = (x, none) := by
      rcases p with ⟨a, b⟩
      have hb2 := hvals (a, b) hp
      simp only at hfst hb2
      rw [hfst, hb2]
    rw [hpe] at hp
    exact hp

/-- Claim C3 (witness): with every bulk and single lookup failing, the
duplicate-bearing input `["1", "2", "1"]` still resolves to a map keyed
by `{"1", "2"}` with explicit `null` entries. -/
theorem claim_C3_witness :
    ("1" ∈ objKeys (getGamertagsBatch bulkFail singleFail ["1", "2", "1"]) ↔
      "1" ∈ (["1", "2", "1"].filter (fun x => x ≠ ""))) ∧
    ("2", none) ∈ getGamertagsBatch bulkFail singleFail ["1", "2", "1"] := by
  have h := claim_C3 bulkFail singleFail ["1", "2", "1"]
    (by intro c v data hok; exact absurd hok (by simp [bulkFail]))
    (by intro x v data hok; exact absurd hok (by simp [singleFail]))
  exact ⟨h.1 "1", h.2 (fun c v => rfl) (fun x v => rfl) "2" (by decide)⟩

end XLink

